import Mathlib

/-!
Verification development for the harmony stream-based p2p request/response
subsystem and block-download pipeline.

The Go sources are shallowly embedded: byte streams become `List Nat`
(each element a byte value), Go maps become association lists, the request
manager's single-writer control loop becomes a step function over an
explicit state record, and fallible operations return `Except`.
-/

namespace Harmony

/-! ## Stream codec (p2p/stream/types, BaseStream) -/

/-- Maximum message size in bytes (`maxMsgBytes = 20 * 1024 * 1024`). -/
def maxMsgBytes : Nat := 20 * 1024 * 1024

/-- Number of bytes used for the length prefix (`sizeBytes = 4`). -/
def sizeBytes : Nat := 4

/-- `intToBytes`: 4-byte little-endian encoding of `val` truncated to uint32,
mirroring `binary.LittleEndian.PutUint32(b, uint32(val))`. -/
def intToBytes (val : Nat) : List Nat :=
  [val % 256, val / 256 % 256, val / 65536 % 256, val / 16777216 % 256]

/-- `bytesToInt`: little-endian uint32 decoding of the first four bytes,
mirroring `binary.LittleEndian.Uint32`. Missing positions read as 0,
matching the zero-initialised `sb := make([]byte, sizeBytes)` buffer. -/
def bytesToInt (b : List Nat) : Nat :=
  b.getD 0 0 + 256 * b.getD 1 0 + 65536 * b.getD 2 0 + 16777216 * b.getD 3 0

/-- `BaseStream.WriteBytes`: rejects payloads longer than `maxMsgBytes`
before touching the stream; otherwise emits the 4-byte little-endian size
prefix followed by the payload (the flush transmits the buffered bytes).
The second component is the byte sequence written to the underlying
stream: empty on the error path because the length check precedes both
`Write` calls. -/
def WriteBytes (b : List Nat) : Except String Unit × List Nat :=
  if b.length > maxMsgBytes then (.error "message too long", [])
  else (.ok (), intToBytes b.length ++ b)

/-- `BaseStream.ReadBytes`: reads the 4-byte size prefix (error when the
stream has no bytes at all, as `bufio.Read` then returns an error), decodes
the declared size, then reads exactly `size` content bytes via
`io.ReadFull`, failing when the stream is exhausted first. Note that the
declared size is not compared against `maxMsgBytes`. -/
def ReadBytes (input : List Nat) : Except String (List Nat) :=
  if input.isEmpty then .error "read size"
  else
    let size := bytesToInt (input.take 4)
    let rest := input.drop 4
    if rest.length < size then .error "read content"
    else .ok (rest.take size)

/-! ## Result queue (hmy/downloader) -/

/-- Block result: pair of block number and originating stream ID
(the block itself is represented by its number, the only field the queue
consults). -/
structure blockResult where
  bn : Nat
  stid : String
deriving DecidableEq, Repr

/-- Modelled from the spec: the resultQueue implementation
(hmy/downloader/types.go) is absent from the sources; only its tests are
present. The spec describes a min-heap keyed by block number with ties
broken by insertion order; it is modelled as a list kept sorted by block
number, with stable (insertion-order-preserving) push. -/
def heapPush (br : blockResult) : List blockResult → List blockResult
  | [] => [br]
  | x :: xs => if x.bn ≤ br.bn then x :: heapPush br xs else br :: x :: xs

/-- Modelled from the spec: hard size cap `queueMaxSize` (≈200). -/
def queueMaxSize : Nat := 200

/-- Modelled from the spec: `Add(blocks, streamID)` fails with QueueFull
when adding would exceed `queueMaxSize`; the capacity check precedes any
insertion, so on failure the queue is unchanged. Returns the outcome and
the resulting queue. -/
def addBlockResults (q : List blockResult) (blocks : List Nat) (stid : String) :
    Except String Unit × List blockResult :=
  if queueMaxSize < q.length + blocks.length then (.error "result queue full", q)
  else (.ok (), blocks.foldl (fun acc bn => heapPush ⟨bn, stid⟩ acc) q)

/-- Modelled from the spec: `PopInOrder(startBN, cap)` pops while the heap
minimum equals the expected next number, collapses duplicates of the
previously emitted number (first kept, dropped from the queue), stops at a
gap, and returns at most `cap` entries. Returns the popped prefix and the
remaining queue. -/
def popBlockResults (expected cap : Nat) : List blockResult → List blockResult × List blockResult
  | [] => ([], [])
  | br :: rest =>
    if cap = 0 then ([], br :: rest)
    else if br.bn + 1 = expected then popBlockResults expected cap rest
    else if br.bn = expected then
      let r := popBlockResults (expected + 1) (cap - 1) rest
      (br :: r.1, r.2)
    else ([], br :: rest)

/-- The queue pre-loaded with `queueMaxSize − 3` entries, used by the C6
capacity scenario. -/
def preloadedQueue : List blockResult :=
  (List.range (queueMaxSize - 3)).map (fun n => ⟨n, "test stream id"⟩)

/-! ## Sync protocol epoch-state serving (p2p/stream/protocols/sync/stream.go) -/

/-- Wire message written back to the peer: either a success payload or a
typed error response (`MakeErrorResponseMessage`). The opaque payload is a
`Nat` placeholder. -/
inductive SyncMessage where
  | epochStateResponse (rid : Nat) (payload : Nat)
  | errorResponse (rid : Nat) (msg : String)
deriving DecidableEq, Repr

/-- `syncStream.computeEpochStateResp`: rejects `epoch = 0` before any
chain access; otherwise queries the chain helper (abstracted as a function
from epoch to an epoch-state payload or error) and wraps the result. -/
def computeEpochStateResp (chain : Nat → Except String Nat) (rid epoch : Nat) :
    Except String SyncMessage :=
  if epoch = 0 then .error "Epoch 0 does not have shard state"
  else
    match chain epoch with
    | .error e => .error e
    | .ok es => .ok (.epochStateResponse rid es)

/-- `syncStream.handleEpochStateRequest`: computes the response; on error
the peer instead receives `MakeErrorResponseMessage(rid, err)`. Returns
the message written to the peer and the handler's returned error. -/
def handleEpochStateRequest (chain : Nat → Except String Nat) (rid epoch : Nat) :
    SyncMessage × Option String :=
  match computeEpochStateResp chain rid epoch with
  | .error e => (.errorResponse rid e, some e)
  | .ok resp => (resp, none)

/-- `chainHelperImpl.getEpochState`: errors on a non-zero shard, then
rejects `epoch = 0`, and only then consults the chain; everything after the
two guards is abstracted as `rest` (header/shard-state lookups). -/
def chainHelperGetEpochState (shardID : Nat) (rest : Nat → Except String Nat)
    (epoch : Nat) : Except String Nat :=
  if shardID ≠ 0 then .error "get epoch state currently unavailable on side chain"
  else if epoch = 0 then .error "nil shard state for epoch 0"
  else rest epoch

/-! ## Request manager (p2p/stream/requestmanager/requestmanager.go)

The single-writer control loop is embedded as a step function over an
explicit state. Go heap objects are modelled as arenas (tag- or
rid-indexed association lists), so pointer aliasing — a request's `owner`
back-pointer surviving the removal of its stream from the `streams` map —
is represented faithfully. -/

/-- Association-list lookup (Go map read). -/
def afind {α : Type} : List (Nat × α) → Nat → Option α
  | [], _ => none
  | (k', v) :: rest, k => if k' = k then some v else afind rest k

/-- Association-list insert-or-overwrite (Go map assignment). -/
def aset {α : Type} : List (Nat × α) → Nat → α → List (Nat × α)
  | [], k, v => [(k, v)]
  | (k', v') :: rest, k, v =>
    if k' = k then (k, v) :: rest else (k', v') :: aset rest k v

/-- Association-list key deletion (Go `delete`). -/
def aerase {α : Type} (l : List (Nat × α)) (k : Nat) : List (Nat × α) :=
  l.filter (fun p => p.1 != k)

/-- Set-style insertion into the `available` set (idempotent, like a Go
map used as a set). -/
def setInsert (l : List Nat) (x : Nat) : List Nat :=
  if x ∈ l then l else l ++ [x]

/-- Set-style deletion from the `available` set. -/
def setErase (l : List Nat) (x : Nat) : List Nat :=
  l.filter (fun y => y != x)

/-- Stream record (`stream` struct of the request manager): the wrapped
sttypes.Stream reduced to its StreamID, plus the `req` pointer given as
the rid of the owned request (`none` when no request is pending). -/
structure RMStreamRec where
  sid : Nat
  req : Option Nat
deriving DecidableEq, Repr

/-- Request record (`request` struct): the mutable `ReqID` (Go zero value
0 until `SetReqID`) and `owner`, a pointer to a stream record given as its
arena tag. The record's arena key (its rid) is the caller-visible
identity: it stands for the `respC`/`waitCh` channels created once per
DoRequest call and never replaced. -/
structure RMRequestRec where
  reqID : Nat
  owner : Option Nat
deriving DecidableEq, Repr

/-- State of the request manager control loop: `streams`, `available`,
`pendings` and `waitings` mirror the four structures of `requestManager`;
the two arenas carry the mutable records; `delivered` is ghost
instrumentation recording each send on a request's respC channel;
`nextTag`/`nextRid` are allocation counters. -/
structure RMState where
  streamArena : List (Nat × RMStreamRec)
  reqArena : List (Nat × RMRequestRec)
  streams : List (Nat × Nat)
  available : List Nat
  pendings : List (Nat × Nat)
  waitings : List Nat
  delivered : List Nat
  nextTag : Nat
  nextRid : Nat
deriving DecidableEq, Repr

/-- Modelled from the spec: the requestQueue type of the request manager
is absent from the sources. The spec describes a doubly-linked waiting
queue whose front is dequeued first, `pushFront` for high priority
(retries/failovers), `pushBack` for low priority (new work), strict FIFO
within a priority class; pushes always succeed. -/
def pushFront (rid : Nat) (w : List Nat) : List Nat := rid :: w

/-- Modelled from the spec: low-priority append to the waiting queue. -/
def pushBack (rid : Nat) (w : List Nat) : List Nat := w ++ [rid]

/-- `addNewStream`: registers an unknown stream in `streams` and
`available`; a stream whose ID is already registered is ignored. -/
def addNewStream (s : RMState) (sid : Nat) : RMState :=
  match afind s.streams sid with
  | some _ => s
  | none =>
    { s with
      streamArena := aset s.streamArena s.nextTag ⟨sid, none⟩
      streams := aset s.streams sid s.nextTag
      available := setInsert s.available sid
      nextTag := s.nextTag + 1 }

/-- `pickAvailableStream`: examines the available set (its iteration
order is unspecified in Go; modelled as taking the front), sanity-checks
that the stream is registered and has no pending request, and only then
returns it (as arena tag and record). -/
def pickAvailableStream (s : RMState) : Except String (Nat × RMStreamRec) :=
  match s.available with
  | [] => .error "no more available streams"
  | sid :: _ =>
    match afind s.streams sid with
    | none => .error "sanity error: available stream not registered"
    | some tag =>
      match afind s.streamArena tag with
      | none => .error "sanity error: available stream not registered"
      | some strec =>
        match strec.req with
        | some _ => .error "sanity error: available stream has pending requests"
        | none => .ok (tag, strec)

/-- Largest key of an association list, for the fresh-id fallback. -/
def maxKey {α : Type} (l : List (Nat × α)) : Nat :=
  l.foldr (fun p m => max p.1 m) 0

/-- `genReqID` draws random ids until one is not a key of `pendings`;
modelled by a caller-supplied seed with a deterministic fresh fallback. -/
def genReqID (s : RMState) (seed : Nat) : Nat :=
  if (afind s.pendings seed).isNone then seed else maxKey s.pendings + 1

/-- `addPendingRequest`: generates a fresh ReqID and stores it in the
request, sets the request's `owner` and the stream's `req` pointer,
deletes the stream's ID from `available` and registers the request in
`pendings` under the new ReqID. -/
def addPendingRequest (s : RMState) (rid : Nat) (req : RMRequestRec) (tag : Nat)
    (strec : RMStreamRec) (seed : Nat) : RMState :=
  let reqID := genReqID s seed
  { s with
    reqArena := aset s.reqArena rid { req with reqID := reqID, owner := some tag }
    streamArena := aset s.streamArena tag { strec with req := some rid }
    available := setErase s.available strec.sid
    pendings := aset s.pendings reqID rid }

/-- `removePendingRequest`: deletes the entry keyed by the request's
current ReqID; when the request has an owner, clears that stream record's
`req` pointer (`clearPendingRequest`) and puts the owner's StreamID back
into `available` — even when that stream is no longer registered. -/
def removePendingRequest (s : RMState) (req : RMRequestRec) : RMState :=
  match req.owner with
  | none => { s with pendings := aerase s.pendings req.reqID }
  | some tag =>
    match afind s.streamArena tag with
    | none => { s with pendings := aerase s.pendings req.reqID }
    | some strec =>
      { s with
        pendings := aerase s.pendings req.reqID
        streamArena := aset s.streamArena tag { strec with req := none }
        available := setInsert s.available strec.sid }

/-- `getNextRequest`: pops the waiting queue; with no available stream the
popped request is pushed back at high priority, leaving the queue as it
was. -/
def getNextRequest (s : RMState) :
    Option (Nat × RMRequestRec × Nat × RMStreamRec) × RMState :=
  match s.waitings with
  | [] => (none, s)
  | rid :: rest =>
    match afind s.reqArena rid with
    | none => (none, { s with waitings := rest })
    | some req =>
      match pickAvailableStream s with
      | .error _ => (none, s)
      | .ok (tag, strec) => (some (rid, req, tag, strec), { s with waitings := rest })

/-- One iteration of the throttle loop body: pair the next waiting request
with an available stream and make it pending (the spawned sender task's
write failure and timeout surface later as separate retry events). -/
def throttleOne (s : RMState) (seed : Nat) : RMState :=
  match getNextRequest s with
  | (none, s1) => s1
  | (some (rid, req, tag, strec), s1) => addPendingRequest s1 rid req tag strec seed

/-- `handleNewRequest`: the freshly created request (ReqID zero, no owner)
is appended to `waitings` at low priority; since pushes always succeed the
error branch of the Go code is not taken. -/
def handleNewRequest (s : RMState) : RMState :=
  { s with
    reqArena := aset s.reqArena s.nextRid ⟨0, none⟩
    waitings := pushBack s.nextRid s.waitings
    nextRid := s.nextRid + 1 }

/-- A delivery: the stream it arrived on and the response's ReqId (the
response payload is irrelevant to the loop's bookkeeping). -/
structure deliverData where
  stID : Nat
  reqId : Nat
deriving DecidableEq, Repr

/-- `validateDelivery`: the stream must be alive, the ReqId pending, the
request's owner must be the delivering stream, and the stream's current
request must carry the delivered ReqId; any failure is reported. -/
def validateDelivery (s : RMState) (d : deliverData) : Except String (Nat × RMRequestRec) :=
  match afind s.streams d.stID with
  | none => .error "data delivered from dead stream"
  | some tag =>
    match afind s.streamArena tag with
    | none => .error "data delivered from dead stream"
    | some strec =>
      match afind s.pendings d.reqId with
      | none => .error "stale p2p response delivery"
      | some rid =>
        match afind s.reqArena rid with
        | none => .error "stale p2p response delivery"
        | some req =>
          match req.owner with
          | none => .error "unexpected delivery stream"
          | some otag =>
            match afind s.streamArena otag with
            | none => .error "unexpected delivery stream"
            | some ostrec =>
              if ostrec.sid ≠ d.stID then .error "unexpected delivery stream"
              else
                match strec.req with
                | none => .error "unexpected deliver request"
                | some srid =>
                  match afind s.reqArena srid with
                  | none => .error "unexpected deliver request"
                  | some sreq =>
                    if sreq.reqID ≠ d.reqId then .error "unexpected deliver request"
                    else .ok (rid, req)

/-- `handleDeliverData`: on successful validation the response is sent on
the request's respC (recorded in `delivered`) and the request removed from
pendings, freeing its stream; a failed validation is a stale delivery and
is dropped with no state change. -/
def handleDeliverData (s : RMState) (d : deliverData) : RMState :=
  match validateDelivery s d with
  | .error _ => s
  | .ok (rid, req) =>
    removePendingRequest { s with delivered := s.delivered ++ [rid] } req

/-- `handleCancelRequest`: drops the request from pendings if present; a
ReqID not in pendings — in particular that of a request still sitting in
the waiting queue — leaves the state untouched. -/
def handleCancelRequest (s : RMState) (reqID : Nat) : RMState :=
  match afind s.pendings reqID with
  | none => s
  | some rid =>
    match afind s.reqArena rid with
    | none => s
    | some req => removePendingRequest s req

/-- `handleRetryRequest`: a pending request is removed from pendings (its
stream freed) and pushed back onto the waiting queue at high priority;
nothing is sent on its respC. -/
def handleRetryRequest (s : RMState) (reqID : Nat) : RMState :=
  match afind s.pendings reqID with
  | none => s
  | some rid =>
    match afind s.reqArena rid with
    | none => s
    | some req =>
      let s1 := removePendingRequest s req
      { s1 with waitings := pushFront rid s1.waitings }

/-- `removeStream`: an unknown ID is ignored; otherwise the stream is
deleted from `available` and `streams`, and a request cleared from it
(`clearPendingRequest`) is re-queued at high priority. -/
def removeStream (s : RMState) (sid : Nat) : RMState :=
  match afind s.streams sid with
  | none => s
  | some tag =>
    match afind s.streamArena tag with
    | none =>
      { s with available := setErase s.available sid, streams := aerase s.streams sid }
    | some strec =>
      match strec.req with
      | none =>
        { s with available := setErase s.available sid, streams := aerase s.streams sid }
      | some rid =>
        { s with
          available := setErase s.available sid
          streams := aerase s.streams sid
          streamArena := aset s.streamArena tag { strec with req := none }
          waitings := pushFront rid s.waitings }

/-- Events processed by the control loop, one select arm each; event
parameters (seeds, ids) are adversarial. -/
inductive RMEvent where
  | newRequest
  | throttle (seed : Nat)
  | deliver (stID reqId : Nat)
  | retry (reqID : Nat)
  | cancel (reqID : Nat)
  | streamAdded (sid : Nat)
  | streamRemoved (sid : Nat)
deriving DecidableEq, Repr

/-- One loop turn. -/
def stepEvent (s : RMState) : RMEvent → RMState
  | .newRequest => handleNewRequest s
  | .throttle seed => throttleOne s seed
  | .deliver stID reqId => handleDeliverData s ⟨stID, reqId⟩
  | .retry reqID => handleRetryRequest s reqID
  | .cancel reqID => handleCancelRequest s reqID
  | .streamAdded sid => addNewStream s sid
  | .streamRemoved sid => removeStream s sid

/-- Run a sequence of loop events. -/
def runEvents (s : RMState) (es : List RMEvent) : RMState :=
  es.foldl stepEvent s

/-- The state of a freshly constructed request manager. -/
def initState : RMState := ⟨[], [], [], [], [], [], [], 0, 0⟩

/-- A state is reachable when some event sequence produces it from the
initial state. -/
def Reachable (s : RMState) : Prop := ∃ es, runEvents initState es = s

/-- The ctx.Done branch of `doRequestAsync`'s waiter goroutine — the
branch taken when the caller's context is already cancelled and no
response has arrived: it emits a cancel event carrying the request's
current ReqID (0 for a request never yet assigned to a stream) and
completes the caller with the context's error. -/
def doRequestCtxDoneBranch (reqID : Nat) (ctxErr : String) : RMEvent × Option String :=
  (.cancel reqID, some ctxErr)

/-- Reachable state used by several witnesses: one stream (ID 7) and one
request (rid 0) assigned to it with ReqID 42. -/
def rmBusyState : RMState :=
  runEvents initState [.streamAdded 7, .newRequest, .throttle 42]

/-! ## Downloader config (hmy/downloader/const.go) -/

/-- `defaultConcurrency = 16`. -/
def defaultConcurrency : Int := 16

/-- `Config` from hmy/downloader/const.go (the `Network` string is omitted
as it does not participate in `fixValues`). Go `int` is embedded as `Int`. -/
structure Config where
  concurrency : Int
  minStreams : Int
  initStreams : Int
deriving DecidableEq, Repr

/-- `Config.fixValues`: zero `Concurrency` becomes `defaultConcurrency`;
`MinStreams` is raised to `Concurrency` when smaller; `InitStreams` is
raised to `MinStreams` when smaller; the three updates run in that order. -/
def fixValues (c : Config) : Config :=
  let c1 := if c.concurrency = 0 then { c with concurrency := defaultConcurrency } else c
  let c2 := if c1.concurrency > c1.minStreams then { c1 with minStreams := c1.concurrency } else c1
  if c2.minStreams > c2.initStreams then { c2 with initStreams := c2.minStreams } else c2

end Harmony

/-! ## Theorems -/

namespace Harmony

theorem bytesToInt_intToBytes (n : Nat) : bytesToInt (intToBytes n) = n % 4294967296 := by
  show n % 256 + 256 * (n / 256 % 256) + 65536 * (n / 65536 % 256) +
    16777216 * (n / 16777216 % 256) = n % 4294967296
  omega

theorem intToBytes_length (n : Nat) : (intToBytes n).length = 4 := rfl

theorem ReadBytes_frame (n : Nat) (payload : List Nat) (hn : n < 4294967296)
    (hlen : payload.length = n) :
    ReadBytes (intToBytes n ++ payload) = .ok payload := by
  have htake : (intToBytes n ++ payload).take 4 = intToBytes n := by
    rw [← intToBytes_length n]; exact List.take_left _ _
  have hdrop : (intToBytes n ++ payload).drop 4 = payload := by
    rw [← intToBytes_length n]; exact List.drop_left _ _
  have hne : (intToBytes n ++ payload).isEmpty = false := rfl
  have hsz : bytesToInt ((intToBytes n ++ payload).take 4) = n := by
    rw [htake, bytesToInt_intToBytes]
    exact Nat.mod_eq_of_lt hn
  have htk : payload.take n = payload := by
    rw [← hlen]; exact List.take_length payload
  simp only [ReadBytes, hne, Bool.false_eq_true, if_false, hsz, hdrop, hlen,
    Nat.lt_irrefl, htk]

/-- C8: for every payload `b` with `len(b) ≤ maxMsgBytes`, `WriteBytes`
emits exactly the 4-byte little-endian encoding of `len(b)` followed by
`b`, and `ReadBytes` applied to that byte sequence returns `b`. -/
theorem codec_roundtrip (b : List Nat) (h : b.length ≤ maxMsgBytes) :
    (WriteBytes b).2 = intToBytes b.length ++ b ∧
    ReadBytes (intToBytes b.length ++ b) = .ok b := by
  constructor
  · simp [WriteBytes, Nat.not_lt.mpr h]
  · refine ReadBytes_frame b.length b ?_ rfl
    have : maxMsgBytes < 4294967296 := by norm_num [maxMsgBytes]
    omega

/-- C8 witness at a concrete payload. -/
theorem codec_roundtrip_witness :
    (WriteBytes [7, 8, 9]).2 = intToBytes 3 ++ [7, 8, 9] ∧
    ReadBytes (intToBytes 3 ++ [7, 8, 9]) = .ok [7, 8, 9] :=
  codec_roundtrip [7, 8, 9] (by norm_num [maxMsgBytes])

/-- C7 counterexample: a frame whose declared length is
`maxMsgBytes + 1 = 20971521` is read back successfully when its payload is
present, so reading a frame with declared length above `maxMsgBytes` does
not fail: `ReadBytes` never compares the declared size with
`maxMsgBytes`. -/
theorem codec_read_oversize_counterexample :
    maxMsgBytes < 20971521 ∧
    ReadBytes (intToBytes 20971521 ++ List.replicate 20971521 0) =
      .ok (List.replicate 20971521 0) := by
  refine ⟨by norm_num [maxMsgBytes], ReadBytes_frame 20971521 _ (by norm_num) ?_⟩
  exact List.length_replicate 20971521 0

/-- C7 amended: `WriteBytes` on a payload longer than `maxMsgBytes` returns
an error without writing anything; `ReadBytes` does not enforce
`maxMsgBytes` — for non-empty input it fails exactly when the available
content is shorter than the declared length, and otherwise returns the
declared number of content bytes regardless of that length. -/
theorem codec_size_enforcement (b input : List Nat) :
    (b.length > maxMsgBytes → WriteBytes b = (.error "message too long", [])) ∧
    (input ≠ [] →
      ReadBytes input =
        if (input.drop 4).length < bytesToInt (input.take 4) then .error "read content"
        else .ok ((input.drop 4).take (bytesToInt (input.take 4)))) := by
  constructor
  · intro h
    simp [WriteBytes, h]
  · intro h
    simp [ReadBytes, List.isEmpty_iff, h]

/-- C7 amended witness: an oversize write fails with nothing written; a
frame declaring 5 bytes with 5 bytes available reads them back. -/
theorem codec_size_enforcement_witness :
    WriteBytes (List.replicate 20971521 0) = (.error "message too long", []) ∧
    ReadBytes [5, 0, 0, 0, 1, 2, 3, 4, 5] = .ok [1, 2, 3, 4, 5] := by
  constructor
  · exact (codec_size_enforcement (List.replicate 20971521 0) []).1
      (by simp only [List.length_replicate]; norm_num [maxMsgBytes])
  · have h := (codec_size_enforcement [] [5, 0, 0, 0, 1, 2, 3, 4, 5]).2 (by decide)
    simpa [bytesToInt] using h

theorem popBlockResults_map_bn (q : List blockResult) (e c : Nat) :
    (popBlockResults e c q).1.map blockResult.bn =
      List.range' e (popBlockResults e c q).1.length := by
  induction q generalizing e c with
  | nil => simp [popBlockResults]
  | cons br rest ih =>
    unfold popBlockResults
    split_ifs with h0 h1 h2
    · simp
    · exact ih e c
    · have := ih (e + 1) (c - 1)
      simp only [List.map_cons, List.length_cons, this, h2, List.range'_succ]
    · simp

theorem popBlockResults_length_le (q : List blockResult) (e c : Nat) :
    (popBlockResults e c q).1.length ≤ c := by
  induction q generalizing e c with
  | nil => simp [popBlockResults]
  | cons br rest ih =>
    unfold popBlockResults
    split_ifs with h0 h1 h2
    · simp
    · exact ih e c
    · have := ih (e + 1) (c - 1)
      simp only [List.length_cons]
      omega
    · simp

theorem popBlockResults_maximal (q : List blockResult) (e c : Nat)
    (hsort : q.Pairwise (fun a b => a.bn ≤ b.bn))
    (hlo : ∀ br ∈ q, e ≤ br.bn + 1) :
    (popBlockResults e c q).1.length < c →
      ∀ br ∈ (popBlockResults e c q).2, br.bn ≠ e + (popBlockResults e c q).1.length := by
  induction q generalizing e c with
  | nil => simp [popBlockResults]
  | cons br rest ih =>
    rw [List.pairwise_cons] at hsort
    unfold popBlockResults
    split_ifs with h0 h1 h2
    · omega
    · exact ih e c hsort.2 (fun x hx => hlo x (List.mem_cons_of_mem br hx))
    · intro hlt x hx
      have hrest : ∀ y ∈ rest, e + 1 ≤ y.bn + 1 := by
        intro y hy
        have := hsort.1 y hy
        omega
      have := ih (e + 1) (c - 1) hsort.2 hrest
        (by simp only [List.length_cons] at hlt; omega) x hx
      simp only [List.length_cons]
      omega
    · intro _ x hx
      simp only [List.length_cons, List.length_nil, Nat.add_zero]
      rcases List.mem_cons.mp hx with h | h
      · subst h
        omega
      · have h1 := hsort.1 x h
        have h2 := hlo br (List.mem_cons_self br rest)
        omega

/-- C2: `popBlockResults(startBN, cap)` returns blocks whose numbers form
the strictly increasing contiguous sequence `startBN, startBN+1, …` with
at most `cap` entries; when the cap was not reached no block numbered
`startBN + (number popped)` is left behind (longest prefix, gap stops the
pop); queue {1,3,4,5} with startBN 1 pops exactly [1]; queue {1,1,1,1,2}
with startBN 1 pops exactly two elements, the first-inserted 1 then 2. -/
theorem resultQueue_popInOrder_spec (q : List blockResult) (startBN cap : Nat)
    (hsort : q.Pairwise (fun a b => a.bn ≤ b.bn))
    (hlo : ∀ br ∈ q, startBN ≤ br.bn + 1) :
    (popBlockResults startBN cap q).1.map blockResult.bn =
      List.range' startBN (popBlockResults startBN cap q).1.length ∧
    (popBlockResults startBN cap q).1.length ≤ cap ∧
    ((popBlockResults startBN cap q).1.length < cap →
      ∀ br ∈ (popBlockResults startBN cap q).2,
        br.bn ≠ startBN + (popBlockResults startBN cap q).1.length) ∧
    popBlockResults 1 10 [⟨1, "A"⟩, ⟨3, "A"⟩, ⟨4, "A"⟩, ⟨5, "A"⟩] =
      ([⟨1, "A"⟩], [⟨3, "A"⟩, ⟨4, "A"⟩, ⟨5, "A"⟩]) ∧
    popBlockResults 1 10 [⟨1, "A"⟩, ⟨1, "B"⟩, ⟨1, "C"⟩, ⟨1, "D"⟩, ⟨2, "E"⟩] =
      ([⟨1, "A"⟩, ⟨2, "E"⟩], []) :=
  ⟨popBlockResults_map_bn q startBN cap,
   popBlockResults_length_le q startBN cap,
   popBlockResults_maximal q startBN cap hsort hlo,
   rfl, rfl⟩

/-- C2 witness at the S1 queue {1,2,3,4,5} with startBN 1 and cap 3. -/
theorem resultQueue_popInOrder_spec_witness :
    (popBlockResults 1 3 [⟨1, "A"⟩, ⟨2, "A"⟩, ⟨3, "A"⟩, ⟨4, "A"⟩, ⟨5, "A"⟩]).1.map
        blockResult.bn =
      List.range' 1
        (popBlockResults 1 3 [⟨1, "A"⟩, ⟨2, "A"⟩, ⟨3, "A"⟩, ⟨4, "A"⟩, ⟨5, "A"⟩]).1.length ∧
    (popBlockResults 1 3 [⟨1, "A"⟩, ⟨2, "A"⟩, ⟨3, "A"⟩, ⟨4, "A"⟩, ⟨5, "A"⟩]).1.length ≤ 3 :=
  ⟨(resultQueue_popInOrder_spec [⟨1, "A"⟩, ⟨2, "A"⟩, ⟨3, "A"⟩, ⟨4, "A"⟩, ⟨5, "A"⟩] 1 3
      (by decide) (by decide)).1,
   (resultQueue_popInOrder_spec [⟨1, "A"⟩, ⟨2, "A"⟩, ⟨3, "A"⟩, ⟨4, "A"⟩, ⟨5, "A"⟩] 1 3
      (by decide) (by decide)).2.1⟩

theorem preloadedQueue_length : preloadedQueue.length = queueMaxSize - 3 := by
  simp [preloadedQueue]

/-- C6: `addBlockResults` fails with the QueueFull error exactly when
adding the given blocks would make the queue size exceed `queueMaxSize`;
on failure the queue is unchanged; with `queueMaxSize − 3` entries
pre-loaded, adding 4 more blocks fails and the queue length remains
`queueMaxSize − 3`. -/
theorem resultQueue_add_capacity (q : List blockResult) (blocks : List Nat) (stid : String) :
    ((addBlockResults q blocks stid).1 = .error "result queue full" ↔
      queueMaxSize < q.length + blocks.length) ∧
    ((addBlockResults q blocks stid).1 = .error "result queue full" →
      (addBlockResults q blocks stid).2 = q) ∧
    (addBlockResults preloadedQueue [1, 2, 3, 4] "").1 = .error "result queue full" ∧
    (addBlockResults preloadedQueue [1, 2, 3, 4] "").2.length = queueMaxSize - 3 := by
  have hcond : queueMaxSize < preloadedQueue.length + ([1, 2, 3, 4] : List Nat).length := by
    rw [preloadedQueue_length]
    norm_num [queueMaxSize]
  have hadd : addBlockResults preloadedQueue [1, 2, 3, 4] "" =
      (.error "result queue full", preloadedQueue) := by
    unfold addBlockResults
    rw [if_pos hcond]
  have hpre : (addBlockResults preloadedQueue [1, 2, 3, 4] "").1 = .error "result queue full" ∧
      (addBlockResults preloadedQueue [1, 2, 3, 4] "").2.length = queueMaxSize - 3 := by
    rw [hadd]
    exact ⟨rfl, preloadedQueue_length⟩
  refine ⟨?_, ?_, hpre.1, hpre.2⟩
  · unfold addBlockResults
    split_ifs with h
    · simp [h]
    · simpa using h
  · unfold addBlockResults
    split_ifs with h
    · intro _; rfl
    · intro hcontra; simp at hcontra

/-- C6 witness: atomicity of the failing add at the pre-loaded queue. -/
theorem resultQueue_add_capacity_witness :
    (addBlockResults preloadedQueue [1, 2, 3, 4] "").2 = preloadedQueue :=
  (resultQueue_add_capacity preloadedQueue [1, 2, 3, 4] "").2.1
    (resultQueue_add_capacity preloadedQueue [1, 2, 3, 4] "").2.2.1

theorem afind_aerase_self {α : Type} (l : List (Nat × α)) (k : Nat) :
    afind (aerase l k) k = none := by
  induction l with
  | nil => rfl
  | cons p rest ih =>
    by_cases h : p.1 = k
    · simpa [aerase, List.filter_cons, h] using ih
    · simpa [aerase, List.filter_cons, h, afind] using ih

theorem not_mem_setErase (l : List Nat) (x : Nat) : x ∉ setErase l x := by
  intro h
  rcases List.mem_filter.mp h with ⟨_, hx⟩
  simp at hx

theorem removePendingRequest_fields (s : RMState) (req : RMRequestRec) :
    (removePendingRequest s req).pendings = aerase s.pendings req.reqID ∧
    (removePendingRequest s req).reqArena = s.reqArena ∧
    (removePendingRequest s req).waitings = s.waitings ∧
    (removePendingRequest s req).delivered = s.delivered := by
  unfold removePendingRequest
  rcases howner : req.owner with _ | tag
  · exact ⟨rfl, rfl, rfl, rfl⟩
  · rcases h : afind s.streamArena tag with _ | strec <;> simp [h]

theorem pickAvailableStream_ok (s : RMState) (tag : Nat) (strec : RMStreamRec)
    (h : pickAvailableStream s = .ok (tag, strec)) : strec.req = none := by
  unfold pickAvailableStream at h
  split at h
  · exact absurd h (by simp)
  · split at h
    · exact absurd h (by simp)
    · split at h
      · exact absurd h (by simp)
      · split at h
        · exact absurd h (by simp)
        · rename_i heq
          simp only [Except.ok.injEq, Prod.mk.injEq] at h
          rw [← h.2]
          exact heq

theorem getNextRequest_some (s : RMState) (rid : Nat) (req : RMRequestRec)
    (tag : Nat) (strec : RMStreamRec) (s1 : RMState)
    (h : getNextRequest s = (some (rid, req, tag, strec), s1)) :
    pickAvailableStream s = .ok (tag, strec) := by
  unfold getNextRequest at h
  split at h
  · exact absurd h (by simp)
  · split at h
    · exact absurd h (by simp)
    · split at h
      · exact absurd h (by simp)
      · rename_i heq
        simp only [Prod.mk.injEq, Option.some.injEq] at h
        obtain ⟨⟨h1, h2, h3, h4⟩, h5⟩ := h
        rw [heq, h3, h4]

theorem handleDeliverData_of_error (s : RMState) (d : deliverData) (e : String)
    (h : validateDelivery s d = .error e) : handleDeliverData s d = s := by
  unfold handleDeliverData
  rw [h]

theorem validateDelivery_stale (s : RMState) (d : deliverData)
    (h : afind s.pendings d.reqId = none) :
    ∃ e, validateDelivery s d = .error e := by
  unfold validateDelivery
  rcases h1 : afind s.streams d.stID with _ | tag
  · exact ⟨_, rfl⟩
  · simp only
    rcases h2 : afind s.streamArena tag with _ | strec
    · exact ⟨_, rfl⟩
    · simp only [h]
      exact ⟨_, rfl⟩

/-- C1: in every reachable state of the control loop, pairing a waiting
request with a stream only happens when that stream's pending-request
field is nil (so no stream is assigned a second request while one is
pending), the pairing removes the stream from the available set, and
`pickAvailableStream` never returns a stream whose pending-request field
is non-nil. -/
theorem rm_single_inflight (s : RMState) (hreach : Reachable s) :
    (∀ rid req tag strec s1, getNextRequest s = (some (rid, req, tag, strec), s1) →
      strec.req = none) ∧
    (∀ s2 rid req tag strec seed,
      strec.sid ∉ (addPendingRequest s2 rid req tag strec seed).available) ∧
    (∀ tag strec, pickAvailableStream s = .ok (tag, strec) → strec.req = none) := by
  refine ⟨?_, ?_, ?_⟩
  · intro rid req tag strec s1 hg
    exact pickAvailableStream_ok s tag strec (getNextRequest_some s rid req tag strec s1 hg)
  · intro s2 rid req tag strec seed
    exact not_mem_setErase s2.available strec.sid
  · intro tag strec h
    exact pickAvailableStream_ok s tag strec h

/-- C1 witness: a reachable state with one stream and one waiting request,
where the next pairing picks a stream with no pending request and the
pairing removes it from the available set. -/
theorem rm_single_inflight_witness :
    (⟨1, none⟩ : RMStreamRec).req = none ∧
    (1 : Nat) ∉ (addPendingRequest (runEvents initState [.streamAdded 1, .newRequest])
      0 ⟨0, none⟩ 0 ⟨1, none⟩ 5).available :=
  ⟨(rm_single_inflight (runEvents initState [.streamAdded 1, .newRequest])
      ⟨[.streamAdded 1, .newRequest], rfl⟩).1 0 ⟨0, none⟩ 0 ⟨1, none⟩ _ rfl,
   (rm_single_inflight (runEvents initState [.streamAdded 1, .newRequest])
      ⟨[.streamAdded 1, .newRequest], rfl⟩).2.1 _ 0 ⟨0, none⟩ 0 ⟨1, none⟩ 5⟩

/-- C3 counterexample: `doRequestAsync` with a pre-cancelled context emits
a cancel event carrying the request's ReqID, which is still the zero value
0 for a request never assigned to a stream; running the loop on the
new-request event followed by that cancel event leaves the request
(rid 0) in the waiting queue — `handleCancelRequest` only removes pending
requests — so the manager's waitings are not empty of the request,
contrary to the claim. -/
theorem rm_cancel_waiting_counterexample :
    (doRequestCtxDoneBranch 0 "context canceled").1 = RMEvent.cancel 0 ∧
    (runEvents initState [.newRequest, .cancel 0]).waitings = [0] ∧
    afind (runEvents initState [.newRequest, .cancel 0]).pendings 0 = none :=
  ⟨rfl, rfl, rfl⟩

/-- C3 amended: `DoRequest` with an already-cancelled context returns
promptly with that context's error, and the resulting cancel event, once
processed, removes the request from the pendings map when its ReqID is
pending; the waiting queue is never touched by cancellation, so a request
still waiting stays in the waitings queue. -/
theorem rm_cancel_amended (s : RMState) (reqID rid : Nat) (req : RMRequestRec) :
    (doRequestCtxDoneBranch reqID "context canceled").2 = some "context canceled" ∧
    (handleCancelRequest s reqID).waitings = s.waitings ∧
    (afind s.pendings reqID = some rid → afind s.reqArena rid = some req →
      req.reqID = reqID → afind (handleCancelRequest s reqID).pendings reqID = none) := by
  refine ⟨rfl, ?_, ?_⟩
  · unfold handleCancelRequest
    rcases h1 : afind s.pendings reqID with _ | rid1
    · rfl
    · rcases h2 : afind s.reqArena rid1 with _ | req1
      · simp only [h2]
      · simp only [h2]
        exact (removePendingRequest_fields s req1).2.2.1
  · intro hp ha hid
    simp only [handleCancelRequest, hp, ha]
    rw [(removePendingRequest_fields s req).1, hid]
    exact afind_aerase_self s.pendings reqID

/-- C3 amended witness: at a state with request rid 0 pending under ReqID
42, the processed cancel removes it from pendings and leaves waitings
untouched. -/
theorem rm_cancel_amended_witness :
    (handleCancelRequest rmBusyState 42).waitings = rmBusyState.waitings ∧
    afind (handleCancelRequest rmBusyState 42).pendings 42 = none :=
  ⟨(rm_cancel_amended rmBusyState 42 0 ⟨42, some 0⟩).2.1,
   (rm_cancel_amended rmBusyState 42 0 ⟨42, some 0⟩).2.2 rfl rfl rfl⟩

/-- C4: a retry event for a pending request moves the same request (same
rid, record unchanged, so the caller-visible respC identity is kept) from
pendings to the front of the waiting queue (high priority) with nothing
sent on its respC; and a successful delivery sends exactly one response
and removes the ReqID from pendings, so the same delivery arriving again
fails validation and is dropped without a second response. -/
theorem rm_retry_identity_at_most_once (s : RMState) (reqID rid : Nat)
    (req : RMRequestRec) (d : deliverData)
    (hp : afind s.pendings reqID = some rid)
    (ha : afind s.reqArena rid = some req)
    (hid : req.reqID = reqID) :
    ((handleRetryRequest s reqID).waitings.head? = some rid ∧
      afind (handleRetryRequest s reqID).pendings reqID = none ∧
      afind (handleRetryRequest s reqID).reqArena rid = some req ∧
      (handleRetryRequest s reqID).delivered = s.delivered) ∧
    (validateDelivery s d = .ok (rid, req) → d.reqId = reqID →
      ((handleDeliverData s d).delivered = s.delivered ++ [rid] ∧
        afind (handleDeliverData s d).pendings reqID = none ∧
        handleDeliverData (handleDeliverData s d) d = handleDeliverData s d)) := by
  have hr : handleRetryRequest s reqID =
      { removePendingRequest s req with
        waitings := pushFront rid (removePendingRequest s req).waitings } := by
    simp only [handleRetryRequest, hp, ha]
  obtain ⟨f1, f2, f3, f4⟩ := removePendingRequest_fields s req
  constructor
  · refine ⟨?_, ?_, ?_, ?_⟩
    · rw [hr]; rfl
    · rw [hr]
      show afind (removePendingRequest s req).pendings reqID = none
      rw [f1, hid]
      exact afind_aerase_self s.pendings reqID
    · rw [hr]
      show afind (removePendingRequest s req).reqArena rid = some req
      rw [f2]
      exact ha
    · rw [hr]
      exact f4
  · intro hv hdr
    have hd : handleDeliverData s d =
        removePendingRequest { s with delivered := s.delivered ++ [rid] } req := by
      simp only [handleDeliverData, hv]
    obtain ⟨g1, g2, g3, g4⟩ :=
      removePendingRequest_fields { s with delivered := s.delivered ++ [rid] } req
    have hpend : afind (handleDeliverData s d).pendings reqID = none := by
      rw [hd, g1]
      show afind (aerase s.pendings req.reqID) reqID = none
      rw [hid]
      exact afind_aerase_self s.pendings reqID
    refine ⟨?_, hpend, ?_⟩
    · rw [hd, g4]
    · obtain ⟨e, he⟩ := validateDelivery_stale (handleDeliverData s d) d
        (by rw [hdr]; exact hpend)
      exact handleDeliverData_of_error (handleDeliverData s d) d e he

/-- C4 witness: stream 7 owns request rid 0 under ReqID 42; the retry
re-queues rid 0 at the front and clears pendings; a valid delivery clears
pendings and its exact repetition is a no-op. -/
theorem rm_retry_identity_at_most_once_witness :
    (handleRetryRequest rmBusyState 42).waitings.head? = some 0 ∧
    afind (handleRetryRequest rmBusyState 42).pendings 42 = none ∧
    afind (handleDeliverData rmBusyState ⟨7, 42⟩).pendings 42 = none ∧
    handleDeliverData (handleDeliverData rmBusyState ⟨7, 42⟩) ⟨7, 42⟩ =
      handleDeliverData rmBusyState ⟨7, 42⟩ :=
  ⟨(rm_retry_identity_at_most_once rmBusyState 42 0 ⟨42, some 0⟩ ⟨7, 42⟩ rfl rfl rfl).1.1,
   (rm_retry_identity_at_most_once rmBusyState 42 0 ⟨42, some 0⟩ ⟨7, 42⟩ rfl rfl rfl).1.2.1,
   ((rm_retry_identity_at_most_once rmBusyState 42 0 ⟨42, some 0⟩ ⟨7, 42⟩ rfl rfl rfl).2
      rfl rfl).2.1,
   ((rm_retry_identity_at_most_once rmBusyState 42 0 ⟨42, some 0⟩ ⟨7, 42⟩ rfl rfl rfl).2
      rfl rfl).2.2⟩

/-- C5: removing a registered stream deletes it from both the streams and
available maps; when it owns a pending request, that request is re-queued
at the front of the waiting queue (high priority); when it owns none, the
waiting queue is unchanged. -/
theorem rm_removeStream_requeues (s : RMState) (sid tag : Nat) (strec : RMStreamRec)
    (hs : afind s.streams sid = some tag)
    (ha : afind s.streamArena tag = some strec) :
    afind (removeStream s sid).streams sid = none ∧
    sid ∉ (removeStream s sid).available ∧
    (∀ rid, strec.req = some rid → (removeStream s sid).waitings = rid :: s.waitings) ∧
    (strec.req = none → (removeStream s sid).waitings = s.waitings) := by
  rcases hreq : strec.req with _ | rid0
  · have hrs : removeStream s sid =
        { s with available := setErase s.available sid, streams := aerase s.streams sid } := by
      simp only [removeStream, hs, ha, hreq]
    rw [hrs]
    refine ⟨afind_aerase_self s.streams sid, not_mem_setErase s.available sid, ?_, fun _ => rfl⟩
    intro rid h
    exact absurd h (by simp)
  · have hrs : removeStream s sid =
        { s with
          available := setErase s.available sid
          streams := aerase s.streams sid
          streamArena := aset s.streamArena tag { strec with req := none }
          waitings := pushFront rid0 s.waitings } := by
      simp only [removeStream, hs, ha, hreq]
    rw [hrs]
    refine ⟨afind_aerase_self s.streams sid, not_mem_setErase s.available sid, ?_, ?_⟩
    · intro rid h
      obtain rfl : rid0 = rid := Option.some.inj h
      rfl
    · intro h
      exact absurd h (by simp)

/-- C5 witness: removing stream 7, which owns the request rid 0, deletes
it from streams and re-queues rid 0 at the front. -/
theorem rm_removeStream_requeues_witness :
    afind (removeStream rmBusyState 7).streams 7 = none ∧
    (removeStream rmBusyState 7).waitings = 0 :: rmBusyState.waitings :=
  ⟨(rm_removeStream_requeues rmBusyState 7 0 ⟨7, some 0⟩ rfl rfl).1,
   (rm_removeStream_requeues rmBusyState 7 0 ⟨7, some 0⟩ rfl rfl).2.2.1 0 rfl⟩

/-- C9: after `fixValues`, a zero `Concurrency` is replaced by the default
16; the result satisfies `Concurrency ≤ MinStreams ≤ InitStreams`;
`MinStreams` (resp. `InitStreams`) is raised exactly when it was smaller
than the normalised `Concurrency` (resp. `MinStreams`) and is otherwise
unchanged, as is a non-zero `Concurrency`. -/
theorem config_fixValues_spec (c : Config) :
    (c.concurrency = 0 → (fixValues c).concurrency = 16) ∧
    (c.concurrency ≠ 0 → (fixValues c).concurrency = c.concurrency) ∧
    (fixValues c).concurrency ≤ (fixValues c).minStreams ∧
    (fixValues c).minStreams ≤ (fixValues c).initStreams ∧
    ((fixValues c).concurrency ≤ c.minStreams → (fixValues c).minStreams = c.minStreams) ∧
    (c.minStreams < (fixValues c).concurrency → (fixValues c).minStreams = (fixValues c).concurrency) ∧
    ((fixValues c).minStreams ≤ c.initStreams → (fixValues c).initStreams = c.initStreams) ∧
    (c.initStreams < (fixValues c).minStreams → (fixValues c).initStreams = (fixValues c).minStreams) := by
  unfold fixValues defaultConcurrency
  rcases c with ⟨cc, ms, is⟩
  simp only
  split_ifs <;> simp_all <;> omega

/-- C10: a GetEpochState request with epoch 0 never yields a success
payload: `computeEpochStateResp` rejects epoch 0 unconditionally
(regardless of the chain), the handler writes a typed error response to
the peer, and the chain helper itself also rejects epoch 0. -/
theorem epochState_zero_rejected (chain : Nat → Except String Nat)
    (rest : Nat → Except String Nat) (rid : Nat) :
    computeEpochStateResp chain rid 0 = .error "Epoch 0 does not have shard state" ∧
    handleEpochStateRequest chain rid 0 =
      (.errorResponse rid "Epoch 0 does not have shard state",
        some "Epoch 0 does not have shard state") ∧
    (∀ rid2 payload, (handleEpochStateRequest chain rid 0).1 ≠
      .epochStateResponse rid2 payload) ∧
    chainHelperGetEpochState 0 rest 0 = .error "nil shard state for epoch 0" := by
  refine ⟨rfl, rfl, ?_, rfl⟩
  intro rid2 payload h
  exact SyncMessage.noConfusion h

/-- C10 witness: with a chain that would happily serve epoch state, epoch
0 still gets an error response. -/
theorem epochState_zero_rejected_witness :
    computeEpochStateResp (fun _ => .ok 5) 3 0 = .error "Epoch 0 does not have shard state" ∧
    (handleEpochStateRequest (fun _ => .ok 5) 3 0).1 ≠ SyncMessage.epochStateResponse 3 9 :=
  ⟨(epochState_zero_rejected (fun _ => .ok 5) (fun _ => .ok 5) 3).1,
   (epochState_zero_rejected (fun _ => .ok 5) (fun _ => .ok 5) 3).2.2.1 3 9⟩

/-- C9 witness: concrete config with zero concurrency and small thresholds. -/
theorem config_fixValues_spec_witness :
    (fixValues ⟨0, 3, 2⟩).concurrency = 16 ∧
    (fixValues ⟨0, 3, 2⟩).minStreams = 16 ∧
    (fixValues ⟨0, 3, 2⟩).initStreams = 16 :=
  ⟨(config_fixValues_spec ⟨0, 3, 2⟩).1 rfl,
   (config_fixValues_spec ⟨0, 3, 2⟩).2.2.2.2.2.1 (by decide),
   (config_fixValues_spec ⟨0, 3, 2⟩).2.2.2.2.2.2.2 (by decide)⟩

end Harmony
